import Mathlib

/-!
Verification of the anatomy-explorer mesh-binding / visibility-resolution core
(`src/components/viewer/AnatomyModelGLTF.tsx` and collaborators).

Strings from the JavaScript side are embedded as lists of (ASCII) code
points, `JStr := List Nat`, so that the regex-based name normalizer can be
modelled faithfully and executed.  Opacities are embedded as rationals.
-/

/-- A JavaScript string, as its list of code points. -/
abbrev JStr := List Nat

/-- Code points of a Lean string literal, for concrete test inputs. -/
def strCodes (s : String) : JStr := s.data.map Char.toNat

/-- Embedding of the regex class `\d` (ASCII digit) on code points. -/
def isDigitC (n : Nat) : Bool := decide (48 ≤ n ∧ n ≤ 57)

/-- Embedding of `String.prototype.toLowerCase` on one ASCII code point. -/
def lowerC (n : Nat) : Nat := if 65 ≤ n ∧ n ≤ 90 then n + 32 else n

/-- Embedding of `String.prototype.toLowerCase`. -/
def toLowerS (s : JStr) : JStr := s.map lowerC

/-- States of the scanner for `replace(/00\x7bd+/g, '')` (with `\x7bd` the
digit class): `norm` = nothing pending, `one` = one `0` pending, `two` =
`00` pending, `skip` = inside a matched digit run being deleted. -/
inductive SZState
  | norm
  | one
  | two
  | skip
deriving DecidableEq

/-- Scanner for `replace(/00\x7bd+/g, '')`: deletes every occurrence of two
`0` digits followed by a maximal nonempty digit run (leftmost match first,
greedy), keeping everything else. -/
def szGo : SZState → JStr → JStr
  | .norm, [] => []
  | .one, [] => [48]
  | .two, [] => [48, 48]
  | .skip, [] => []
  | .norm, c :: rest => if c = 48 then szGo .one rest else c :: szGo .norm rest
  | .one, c :: rest => if c = 48 then szGo .two rest else 48 :: c :: szGo .norm rest
  | .two, c :: rest =>
      if isDigitC c then szGo .skip rest else 48 :: 48 :: c :: szGo .norm rest
  | .skip, c :: rest => if isDigitC c then szGo .skip rest else c :: szGo .norm rest

/-- `gltfName.replace(/00\x7bd+/g, '')` — strips Blender duplication suffixes. -/
def stripZeros (s : JStr) : JStr := szGo .norm s

/-- Scanner for `replace(/__+/g, '_')`: `afterU` records whether the previous
input character was an underscore (code 95), in which case further
underscores of the same run are dropped. -/
def cuGo (afterU : Bool) : JStr → JStr
  | [] => []
  | c :: rest =>
      if c = 95 then
        if afterU then cuGo true rest else 95 :: cuGo true rest
      else c :: cuGo false rest

/-- `replace(/__+/g, '_')` — collapses repeated underscores to one. -/
def collapseU (s : JStr) : JStr := cuGo false s

/-- `replace(/_+$/, '')` — strips trailing underscores. -/
def stripTrailU (s : JStr) : JStr := (s.reverse.dropWhile (fun c => c = 95)).reverse

/-- `normalizeGltfName` from the source: strip `00`-digit duplication
suffixes, lowercase, collapse repeated underscores, strip trailing
underscores. -/
def normalizeGltfName (gltfName : JStr) : JStr :=
  stripTrailU (collapseU (toLowerS (stripZeros gltfName)))

/-!  Catalog data model (`StructureMetadata`, `MetadataFile.structures`). -/

/-- `StructureMetadata` from the source.  The `type` field is kept as a plain
string, as in the JSON data (the lookup tables below have the source's
fallbacks for unanticipated values). -/
structure StructureMetadata where
  meshId : JStr
  originalName : JStr
  type : String
  layer : Nat
  regions : List JStr
  center : ℚ × ℚ × ℚ
deriving DecidableEq

/-- `metadata.structures`: a string-keyed record of `StructureMetadata`,
embedded as an association list with unique keys. -/
abbrev Catalog := List (JStr × StructureMetadata)

/-- `findMetadataForMesh` from the source: exact-key lookup, then the
normalized form, then the plain-lowercased form; `none` if all three miss. -/
def findMetadataForMesh (gltfName : JStr) (structures : Catalog) :
    Option (JStr × StructureMetadata) :=
  match structures.lookup gltfName with
  | some data => some (gltfName, data)
  | none =>
    match structures.lookup (normalizeGltfName gltfName) with
    | some data => some (normalizeGltfName gltfName, data)
    | none =>
      match structures.lookup (toLowerS gltfName) with
      | some data => some (toLowerS gltfName, data)
      | none => none

/-!  Structure filtering (`shouldRenderByTypeAndName`). -/

/-- `EXCLUDE_NAME_PATTERNS` from the source. -/
def EXCLUDE_NAME_PATTERNS : List JStr :=
  [strCodes "plane", strCodes "planes", strCodes "flexion", strCodes "extension",
   strCodes "rotation", strCodes "abduction", strCodes "adduction",
   strCodes "pronation", strCodes "supination", strCodes "circumduction",
   strCodes "lateral_rectus_muscle", strCodes "medial_rectus_muscle",
   strCodes "superior_rectus_muscle", strCodes "inferior_rectus_muscle",
   strCodes "superior_oblique_muscle", strCodes "inferior_oblique_muscle",
   strCodes "pronator_quadratus", strCodes "pronator_teres", strCodes "supinator",
   strCodes "oblique_cord", strCodes "plantae", strCodes "popliteal",
   strCodes "femoris", strCodes "tibial", strCodes "fibular", strCodes "peroneal",
   strCodes "gastrocnemius", strCodes "soleus", strCodes "plantaris",
   strCodes "lymph_node"]

/-- `EXCLUDE_TYPES` from the source. -/
def EXCLUDE_TYPES : List String := ["organ"]

/-- One step of `String.prototype.startsWith` on code-point lists. -/
def startsWithJ : JStr → JStr → Bool
  | [], _ => true
  | _ :: _, [] => false
  | a :: p, b :: l => a = b && startsWithJ p l

/-- `haystack.includes(needle)` on code-point lists. -/
def containsSub (hay needle : JStr) : Bool :=
  match hay with
  | [] => needle.isEmpty
  | c :: t => startsWithJ needle (c :: t) || containsSub t needle

/-- `s.endsWith(pat)` on code-point lists. -/
def endsWithJ (s pat : JStr) : Bool := startsWithJ pat.reverse s.reverse

/-- The regex `/_i$/i` of `EXCLUDE_SUFFIX_PATTERNS`, on a lowercased input. -/
def sufPatI (s : JStr) : Bool := endsWithJ s [95, 105]

/-- The regex `/_el$/i` of `EXCLUDE_SUFFIX_PATTERNS`, on a lowercased input. -/
def sufPatEL (s : JStr) : Bool := endsWithJ s [95, 101, 108]

/-- The regex `/_er$/i` of `EXCLUDE_SUFFIX_PATTERNS`, on a lowercased input. -/
def sufPatER (s : JStr) : Bool := endsWithJ s [95, 101, 114]

/-- The regex `/_o\x7bd*[lr]$/i` of `EXCLUDE_SUFFIX_PATTERNS` (with `\x7bd`
the digit class), on a lowercased input: reading from the end, an `l` or
`r`, a possibly empty digit run, then `o` preceded by `_`. -/
def sufPatO (s : JStr) : Bool :=
  match s.reverse with
  | c :: rest =>
      (c = 108 || c = 114) &&
        (match rest.dropWhile isDigitC with
         | o :: u :: _ => o = 111 && u = 95
         | _ => false)
  | [] => false

/-- The regex `/_e\x7bd+[lr]$/i` of `EXCLUDE_SUFFIX_PATTERNS`: as `sufPatO`
but with letter `e` and a nonempty digit run. -/
def sufPatE (s : JStr) : Bool :=
  match s.reverse with
  | c :: rest =>
      (c = 108 || c = 114) && !(rest.takeWhile isDigitC).isEmpty &&
        (match rest.dropWhile isDigitC with
         | e :: u :: _ => e = 101 && u = 95
         | _ => false)
  | [] => false

/-- `EXCLUDE_SUFFIX_PATTERNS.some(pattern => pattern.test(metadata.meshId))`:
all five regexes carry the `/i` flag, so the input is lowercased once here. -/
def matchesExcludedSuffix (meshId : JStr) : Bool :=
  sufPatI (toLowerS meshId) || sufPatO (toLowerS meshId) || sufPatE (toLowerS meshId) ||
    sufPatEL (toLowerS meshId) || sufPatER (toLowerS meshId)

/-- `shouldRenderByTypeAndName` from the source. -/
def shouldRenderByTypeAndName (metadata : StructureMetadata) : Bool :=
  if EXCLUDE_TYPES.contains metadata.type then false
  else if EXCLUDE_NAME_PATTERNS.any (fun pat => containsSub (toLowerS metadata.meshId) pat) then
    false
  else if matchesExcludedSuffix metadata.meshId then false
  else true

/-!  The binder (`processedStructures` in `AnatomyModelGLTF`). -/

/-- `ProcessedStructure`, restricted to the binding-relevant fields: the
original glTF mesh name used as the unique React key, the catalog key the
mesh was matched to (`match.key`), and the matched record.  The cloned
`THREE.Mesh` geometry is outside the scope of the embedding. -/
structure BoundStructure where
  uniqueKey : JStr
  catalogKey : JStr
  metadata : StructureMetadata
deriving DecidableEq

/-- The accumulator of the `scene.traverse` pass: the emitted structures,
the `usedMetadataKeys` set (kept in insertion order), and the three
diagnostic counters. -/
structure BindResult where
  structures : List BoundStructure
  usedMetadataKeys : List JStr
  skippedByTypeOrName : Nat
  skippedDuplicate : Nat
  unmatchedCount : Nat
deriving DecidableEq

/-- The body of the `scene.traverse` callback for one mesh name: match,
then the duplicate check, then the renderability filter, then bind. -/
def bindStep (catalog : Catalog) (st : BindResult) (gltfMeshName : JStr) : BindResult :=
  match findMetadataForMesh gltfMeshName catalog with
  | none => { st with unmatchedCount := st.unmatchedCount + 1 }
  | some (key, data) =>
    if st.usedMetadataKeys.contains key then
      { st with skippedDuplicate := st.skippedDuplicate + 1 }
    else if !shouldRenderByTypeAndName data then
      { st with skippedByTypeOrName := st.skippedByTypeOrName + 1 }
    else
      { st with
          usedMetadataKeys := st.usedMetadataKeys ++ [key],
          structures := st.structures ++ [⟨gltfMeshName, key, data⟩] }

/-- Initial accumulator of `processedStructures`. -/
def initBindResult : BindResult := ⟨[], [], 0, 0, 0⟩

/-- `processedStructures`: fold the traverse callback over the scene's mesh
names in encounter order. -/
def processedStructures (catalog : Catalog) (sceneMeshNames : List JStr) : BindResult :=
  sceneMeshNames.foldl (bindStep catalog) initBindResult

/-!  Interaction state, visibility / highlight resolver, animator
(`StructureMesh` and the `LayerVisibility` type). -/

/-- `LayerVisibility` from `@/types`: the five per-layer toggles. -/
structure LayerVisibility where
  bones : Bool
  muscles : Bool
  tendons : Bool
  ligaments : Bool
  organs : Bool
deriving DecidableEq

/-- The keys of `LayerVisibility`, for the `TYPE_TO_VISIBILITY_KEY` table. -/
inductive VisibilityKey
  | bones
  | muscles
  | tendons
  | ligaments
  | organs
deriving DecidableEq

/-- `layerVisibility[key]`. -/
def lookupLayer (lv : LayerVisibility) : VisibilityKey → Bool
  | .bones => lv.bones
  | .muscles => lv.muscles
  | .tendons => lv.tendons
  | .ligaments => lv.ligaments
  | .organs => lv.organs

/-- `TYPE_TO_VISIBILITY_KEY` from the source: a string-keyed record with
seven entries; absent keys yield `none` (JS `undefined`). -/
def TYPE_TO_VISIBILITY_KEY (t : String) : Option VisibilityKey :=
  if t = "bone" then some .bones
  else if t = "muscle" then some .muscles
  else if t = "organ" then some .organs
  else if t = "tendon" then some .tendons
  else if t = "ligament" then some .ligaments
  else if t = "cartilage" then some .bones
  else if t = "fascia" then some .muscles
  else none

/-- `TYPE_TO_VISIBILITY_KEY[metadata.type] || 'muscles'`. -/
def visibilityKeyFor (t : String) : VisibilityKey :=
  (TYPE_TO_VISIBILITY_KEY t).getD .muscles

/-- `isTypeVisible = layerVisibility[visibilityKey]`; the component returns
`null` (renders nothing at all) when this is `false`. -/
def isTypeVisible (lv : LayerVisibility) (t : String) : Bool :=
  lookupLayer lv (visibilityKeyFor t)

/-- One `default`/`highlight` color pair of `TYPE_COLORS`. -/
structure ColorPair where
  dflt : String
  highlight : String
deriving DecidableEq

/-- `TYPE_COLORS.muscle`, the fallback pair. -/
def muscleColors : ColorPair := ⟨"#C41E3A", "#FF4D6A"⟩

/-- `TYPE_COLORS` from the source: a string-keyed record with seven
entries; absent keys yield `none` (JS `undefined`). -/
def TYPE_COLORS (t : String) : Option ColorPair :=
  if t = "bone" then some ⟨"#E8DCC4", "#FFF8E7"⟩
  else if t = "muscle" then some muscleColors
  else if t = "organ" then some ⟨"#8B4557", "#A85A6F"⟩
  else if t = "tendon" then some ⟨"#D4A574", "#E8C9A0"⟩
  else if t = "ligament" then some ⟨"#8B7355", "#A89070"⟩
  else if t = "cartilage" then some ⟨"#A8D5BA", "#C5E8D2"⟩
  else if t = "fascia" then some ⟨"#D4A5A5", "#E8C5C5"⟩
  else none

/-- `TYPE_COLORS[metadata.type] || TYPE_COLORS.muscle`. -/
def colorsFor (t : String) : ColorPair := (TYPE_COLORS t).getD muscleColors

/-- The slice of the anatomy store read by `StructureMesh`. -/
structure InteractionState where
  hoveredStructureId : Option JStr
  selectedStructureId : Option JStr
  layerVisibility : LayerVisibility
  peelDepth : Nat
  searchQuery : JStr
deriving DecidableEq

/-- `matchesSearch`: query longer than one character and a case-insensitive
substring of the mesh id or of the original display name. -/
def matchesSearch (md : StructureMetadata) (st : InteractionState) : Bool :=
  decide (st.searchQuery.length > 1) &&
    (containsSub (toLowerS md.meshId) (toLowerS st.searchQuery) ||
     containsSub (toLowerS md.originalName) (toLowerS st.searchQuery))

/-- `isSelected = selectedStructureId === metadata.meshId`. -/
def isSelected (md : StructureMetadata) (st : InteractionState) : Bool :=
  decide (st.selectedStructureId = some md.meshId)

/-- `isHighlighted`: hovered locally, selected, hovered via the store, or a
search match.  `hovered` is the component's local hover state. -/
def isHighlighted (hovered : Bool) (md : StructureMetadata) (st : InteractionState) : Bool :=
  hovered || isSelected md st || decide (st.hoveredStructureId = some md.meshId) ||
    matchesSearch md st

/-- `maxVisibleLayer = 3 - peelDepth` (as JS number arithmetic, so it may
go negative; hence the integer codomain). -/
def maxVisibleLayer (st : InteractionState) : Int := 3 - (st.peelDepth : Int)

/-- `isPeeled = metadata.layer > maxVisibleLayer`. -/
def isPeeled (md : StructureMetadata) (st : InteractionState) : Bool :=
  decide ((md.layer : Int) > maxVisibleLayer st)

/-- `shouldPeel = isPeeled && !matchesSearch`. -/
def shouldPeel (md : StructureMetadata) (st : InteractionState) : Bool :=
  isPeeled md st && !matchesSearch md st

/-- `targetOpacity = shouldPeel ? 0 : (metadata.type === 'bone' ? 1 : 0.9)`. -/
def targetOpacity (md : StructureMetadata) (st : InteractionState) : ℚ :=
  if shouldPeel md st then 0 else if md.type = "bone" then 1 else 9 / 10

/-- The target color resolved inside `useFrame`: gold for a search match,
else the highlight color when highlighted and not peeled, else the type's
base color. -/
def targetColor (hovered : Bool) (md : StructureMetadata) (st : InteractionState) : String :=
  if matchesSearch md st then "#FFD700"
  else if isHighlighted hovered md st && !shouldPeel md st then (colorsFor md.type).highlight
  else (colorsFor md.type).dflt

/-- One `useFrame` tick of the opacity animator:
`animatedOpacity += (targetOpacity - animatedOpacity) * 0.08`. -/
def stepOpacity (target animatedOpacity : ℚ) : ℚ :=
  animatedOpacity + (target - animatedOpacity) * (8 / 100)

/-- `isInteractive = animatedOpacity.current > 0.1`. -/
def isInteractive (animatedOpacity : ℚ) : Bool := decide (animatedOpacity > 1 / 10)

/-- Modelled from the spec: the anatomy store implementation (`@/store`) is
not under `src/`, only its callers are.  Per the spec's store contract,
`set-selected(key|null)` "toggles to null if re-invoked with the
already-selected key (selection is a toggle, not a one-way set)"; otherwise
it stores the given key.  The result is the new `selectedStructureId`. -/
def setSelectedStructure (key current : Option JStr) : Option JStr :=
  if key = current then none else key

/-- Effect of `onPointerOver` on the local hover flag and the store's
hovered id; a no-op unless the structure is interactive. -/
def onPointerOverEffect (interactive : Bool) (md : StructureMetadata)
    (hovered : Bool) (st : InteractionState) : Bool × InteractionState :=
  if interactive then (true, { st with hoveredStructureId := some md.meshId })
  else (hovered, st)

/-- Effect of `onPointerOut`; a no-op unless the structure is interactive. -/
def onPointerOutEffect (interactive : Bool) (hovered : Bool)
    (st : InteractionState) : Bool × InteractionState :=
  if interactive then (false, { st with hoveredStructureId := none })
  else (hovered, st)

/-- Effect of `onClick`: `setSelectedStructure(isSelected ? null :
metadata.meshId)`; a no-op unless the structure is interactive. -/
def onClickEffect (interactive : Bool) (md : StructureMetadata)
    (st : InteractionState) : InteractionState :=
  if interactive then
    { st with
        selectedStructureId :=
          setSelectedStructure (if isSelected md st then none else some md.meshId)
            st.selectedStructureId }
  else st

/-!  Concrete fixtures for the executable checks. -/

/-- A renderable bone record under the catalog key `pelvis_bone`. -/
def mdPelvis : StructureMetadata :=
  ⟨strCodes "pelvis_bone", strCodes "Pelvis Bone", "bone", 0, [], (0, 0, 0)⟩

/-- A one-entry catalog for the order-sensitivity check. -/
def pelvisCat : Catalog := [(strCodes "pelvis_bone", mdPelvis)]

/-- An organ record (hence rejected by the filter) under the key `liver`. -/
def mdLiver : StructureMetadata :=
  ⟨strCodes "liver", strCodes "Liver", "organ", 1, [], (0, 0, 0)⟩

/-- A one-entry catalog whose only record fails the renderability filter. -/
def liverCat : Catalog := [(strCodes "liver", mdLiver)]

/-- A bone record under the catalog key `hip_bone`. -/
def mdHip : StructureMetadata :=
  ⟨strCodes "hip_bone", strCodes "Hip Bone", "bone", 0, [], (0, 0, 0)⟩

/-- A one-entry catalog for the fallback-lookup check. -/
def hipCat : Catalog := [(strCodes "hip_bone", mdHip)]

/-- All five layers visible. -/
def lvAll : LayerVisibility := ⟨true, true, true, true, true⟩

/-- Bones layer off. -/
def lvNoBones : LayerVisibility := ⟨false, true, true, true, true⟩

/-- Muscles layer off. -/
def lvNoMuscles : LayerVisibility := ⟨true, false, true, true, true⟩

/-- Default interaction state: nothing hovered or selected, all layers on,
peel depth 0, empty search query. -/
def stDefault : InteractionState := ⟨none, none, lvAll, 0, []⟩

/-- Default state but with the bones layer off. -/
def stNoBones : InteractionState := ⟨none, none, lvNoBones, 0, []⟩

/-- Default state but with the muscles layer off. -/
def stNoMuscles : InteractionState := ⟨none, none, lvNoMuscles, 0, []⟩

/-- Default state with the search query `psoas`. -/
def stSearchPsoas : InteractionState := ⟨none, none, lvAll, 0, strCodes "psoas"⟩

/-- Default state with `psoas_major` selected. -/
def stSelPsoas : InteractionState := ⟨none, some (strCodes "psoas_major"), lvAll, 0, []⟩

/-- A bone record at depth layer 3 (the boundary layer with peel depth 0). -/
def mdBone3 : StructureMetadata :=
  ⟨strCodes "sternum", strCodes "Sternum", "bone", 3, [], (0, 0, 0)⟩

/-- A muscle record at depth layer 4 (peeled with peel depth 0). -/
def mdMuscle4 : StructureMetadata :=
  ⟨strCodes "psoas_major", strCodes "Psoas Major", "muscle", 4, [], (0, 0, 0)⟩

/-- A cartilage record. -/
def mdCart : StructureMetadata :=
  ⟨strCodes "costal_cartilage", strCodes "Costal Cartilage", "cartilage", 1, [], (0, 0, 0)⟩

/-- A fascia record. -/
def mdFascia : StructureMetadata :=
  ⟨strCodes "thoracolumbar_fascia", strCodes "Thoracolumbar Fascia", "fascia", 2, [], (0, 0, 0)⟩

/-!  Shape predicates used to reason about the normalizer.  `hasZZD`
detects an occurrence of the regex `00` followed by a digit (the start of a
`/00\x7bd+/` match), `hasDD` an occurrence of two adjacent underscores (the
start of a `/__+/` match). -/

/-- Whether the first code point is the digit `0`. -/
def headIs48 : JStr → Bool
  | c :: _ => decide (c = 48)
  | [] => false

/-- Whether the first code point is an ASCII digit. -/
def headIsDigit : JStr → Bool
  | c :: _ => isDigitC c
  | [] => false

/-- Whether the first code point is an underscore. -/
def headIsU : JStr → Bool
  | c :: _ => decide (c = 95)
  | [] => false

/-- Whether the string starts with `0`, `0`, digit — the start of a
`/00\x7bd+/` match. -/
def startsZZD (l : JStr) : Bool := headIs48 l && headIs48 l.tail && headIsDigit l.tail.tail

/-- Whether the string contains `0`, `0`, digit anywhere. -/
def hasZZD : JStr → Bool
  | [] => false
  | c :: t => startsZZD (c :: t) || hasZZD t

/-- Whether the string starts with two underscores — the start of a
`/__+/` match. -/
def startsDD (l : JStr) : Bool := headIsU l && headIsU l.tail

/-- Whether the string contains two adjacent underscores anywhere. -/
def hasDD : JStr → Bool
  | [] => false
  | c :: t => startsDD (c :: t) || hasDD t

/-!  Lemmas about the shape predicates. -/

theorem startsZZD_cons (c : Nat) (l : JStr) :
    startsZZD (c :: l) = (decide (c = 48) && (headIs48 l && headIsDigit l.tail)) := by
  simp [startsZZD, headIs48, Bool.and_assoc]

theorem hasZZD_cons (c : Nat) (l : JStr) :
    hasZZD (c :: l) = (startsZZD (c :: l) || hasZZD l) := rfl

theorem hasZZD_cons_ne {c : Nat} (h : c ≠ 48) (l : JStr) : hasZZD (c :: l) = hasZZD l := by
  simp [hasZZD_cons, startsZZD_cons, h]

theorem not_digit_ne_48 {c : Nat} (h : isDigitC c = false) : c ≠ 48 := by
  simp [isDigitC] at h
  omega

theorem headIs48_of_headIsDigit_false {l : JStr} (h : headIsDigit l = false) :
    headIs48 l = false := by
  cases l with
  | nil => rfl
  | cons c t =>
    simp [headIsDigit, isDigitC] at h
    simp [headIs48]
    omega

theorem startsDD_cons (c : Nat) (l : JStr) :
    startsDD (c :: l) = (decide (c = 95) && headIsU l) := by
  simp [startsDD, headIsU]

theorem hasDD_cons (c : Nat) (l : JStr) :
    hasDD (c :: l) = (startsDD (c :: l) || hasDD l) := rfl

theorem hasDD_cons_ne {c : Nat} (h : c ≠ 95) (l : JStr) : hasDD (c :: l) = hasDD l := by
  simp [hasDD_cons, startsDD_cons, h]

/-!  The suffix stripper produces no `00`-digit occurrence, and is the
identity on strings with none. -/

theorem szGo_noZZD (l : JStr) :
    hasZZD (szGo .norm l) = false ∧ hasZZD (szGo .one l) = false ∧
      hasZZD (szGo .two l) = false ∧ hasZZD (szGo .skip l) = false := by
  induction l with
  | nil => exact ⟨rfl, by decide, by decide, rfl⟩
  | cons c rest ih =>
    obtain ⟨ihn, iho, iht, ihs⟩ := ih
    refine ⟨?_, ?_, ?_, ?_⟩
    · show hasZZD (if c = 48 then szGo .one rest else c :: szGo .norm rest) = false
      by_cases h : c = 48
      · simpa [h] using iho
      · simpa [h, hasZZD_cons_ne h] using ihn
    · show hasZZD (if c = 48 then szGo .two rest else 48 :: c :: szGo .norm rest) = false
      by_cases h : c = 48
      · simpa [h] using iht
      · simp [h, hasZZD_cons, startsZZD_cons, headIs48, h, hasZZD_cons_ne h, ihn]
    · show hasZZD
          (if isDigitC c then szGo .skip rest else 48 :: 48 :: c :: szGo .norm rest) = false
      by_cases h : isDigitC c
      · simpa [h] using ihs
      · have hc : c ≠ 48 := not_digit_ne_48 (by simpa using h)
        simp [h, hasZZD_cons, startsZZD_cons, headIs48, headIsDigit, hc,
          hasZZD_cons_ne hc, ihn]
    · show hasZZD (if isDigitC c then szGo .skip rest else c :: szGo .norm rest) = false
      by_cases h : isDigitC c
      · simpa [h] using ihs
      · have hc : c ≠ 48 := not_digit_ne_48 (by simpa using h)
        simpa [h, hasZZD_cons_ne hc] using ihn

theorem stripZeros_noZZD (l : JStr) : hasZZD (stripZeros l) = false := (szGo_noZZD l).1

theorem szGo_id (l : JStr) :
    (hasZZD l = false → szGo .norm l = l) ∧
      (hasZZD (48 :: l) = false → szGo .one l = 48 :: l) ∧
      (hasZZD (48 :: 48 :: l) = false → szGo .two l = 48 :: 48 :: l) := by
  induction l with
  | nil => exact ⟨fun _ => rfl, fun _ => rfl, fun _ => rfl⟩
  | cons c rest ih =>
    obtain ⟨ihn, iho, iht⟩ := ih
    refine ⟨fun h => ?_, fun h => ?_, fun h => ?_⟩
    · show (if c = 48 then szGo .one rest else c :: szGo .norm rest) = c :: rest
      by_cases hc : c = 48
      · subst hc
        simp [iho h]
      · have hrest : hasZZD rest = false := by
          rw [hasZZD_cons] at h
          exact (Bool.or_eq_false_iff.mp h).2
        simp [hc, ihn hrest]
    · show (if c = 48 then szGo .two rest else 48 :: c :: szGo .norm rest) = 48 :: c :: rest
      by_cases hc : c = 48
      · subst hc
        simp [iht h]
      · have hrest : hasZZD rest = false := by
          rw [hasZZD_cons] at h
          have h2 := (Bool.or_eq_false_iff.mp h).2
          rw [hasZZD_cons] at h2
          exact (Bool.or_eq_false_iff.mp h2).2
        simp [hc, ihn hrest]
    · show (if isDigitC c then szGo .skip rest else 48 :: 48 :: c :: szGo .norm rest) =
        48 :: 48 :: c :: rest
      have hstart : startsZZD (48 :: 48 :: c :: rest) = false := by
        rw [hasZZD_cons] at h
        exact (Bool.or_eq_false_iff.mp h).1
      have hdig : isDigitC c = false := by
        simpa [startsZZD_cons, headIs48, headIsDigit] using hstart
      have hrest : hasZZD rest = false := by
        rw [hasZZD_cons] at h
        have h2 := (Bool.or_eq_false_iff.mp h).2
        rw [hasZZD_cons] at h2
        have h3 := (Bool.or_eq_false_iff.mp h2).2
        rw [hasZZD_cons] at h3
        exact (Bool.or_eq_false_iff.mp h3).2
      simp [hdig, ihn hrest]

theorem stripZeros_id {l : JStr} (h : hasZZD l = false) : stripZeros l = l :=
  (szGo_id l).1 h

/-!  Lowercasing is pointwise idempotent and does not touch digits or
underscores, so it preserves the absence of `00`-digit occurrences. -/

theorem lowerC_idem (n : Nat) : lowerC (lowerC n) = lowerC n := by
  simp only [lowerC]
  split_ifs <;> omega

theorem lowerC_eq_48_iff (n : Nat) : lowerC n = 48 ↔ n = 48 := by
  simp only [lowerC]
  split_ifs with h <;> omega

theorem isDigitC_lowerC (n : Nat) : isDigitC (lowerC n) = isDigitC n := by
  simp only [isDigitC, lowerC, decide_eq_decide]
  split_ifs with h <;> omega

theorem headIs48_toLowerS (l : JStr) : headIs48 (toLowerS l) = headIs48 l := by
  cases l with
  | nil => rfl
  | cons c t => simp [toLowerS, headIs48, decide_eq_decide, lowerC_eq_48_iff]

theorem headIsDigit_toLowerS (l : JStr) : headIsDigit (toLowerS l) = headIsDigit l := by
  cases l with
  | nil => rfl
  | cons c t => simp [toLowerS, headIsDigit, isDigitC_lowerC]

theorem tail_toLowerS (l : JStr) : (toLowerS l).tail = toLowerS l.tail := by
  cases l <;> simp [toLowerS]

theorem startsZZD_toLowerS (l : JStr) : startsZZD (toLowerS l) = startsZZD l := by
  simp [startsZZD, headIs48_toLowerS, headIsDigit_toLowerS, tail_toLowerS]

theorem hasZZD_toLowerS (l : JStr) : hasZZD (toLowerS l) = hasZZD l := by
  induction l with
  | nil => rfl
  | cons c t ih =>
    show hasZZD (lowerC c :: toLowerS t) = _
    rw [hasZZD_cons, hasZZD_cons]
    have : (lowerC c :: toLowerS t) = toLowerS (c :: t) := rfl
    rw [this, startsZZD_toLowerS, ih]

theorem toLowerS_fixed_of_mem {l : JStr} (h : ∀ c ∈ l, lowerC c = c) : toLowerS l = l := by
  induction l with
  | nil => rfl
  | cons c t ih =>
    show lowerC c :: toLowerS t = c :: t
    rw [h c (List.mem_cons_self c t), ih fun x hx => h x (List.mem_cons_of_mem c hx)]

theorem toLowerS_mem_fixed {l : JStr} {c : Nat} (h : c ∈ toLowerS l) : lowerC c = c := by
  obtain ⟨a, _, rfl⟩ := List.mem_map.mp h
  exact lowerC_idem a

/-!  The underscore collapser produces no double underscore, only emits
characters of its input, preserves the absence of `00`-digit occurrences,
and is the identity on strings with no double underscore. -/

theorem cuGo_noDD (l : JStr) :
    hasDD (cuGo false l) = false ∧ hasDD (cuGo true l) = false ∧
      headIsU (cuGo true l) = false := by
  induction l with
  | nil => exact ⟨rfl, rfl, rfl⟩
  | cons c rest ih =>
    obtain ⟨ihf, iht, ihh⟩ := ih
    by_cases h : c = 95
    · subst h
      refine ⟨?_, by simpa [cuGo] using iht, by simpa [cuGo] using ihh⟩
      show hasDD (95 :: cuGo true rest) = false
      simp [hasDD_cons, startsDD_cons, ihh, iht]
    · have e : ∀ b : Bool, cuGo b (c :: rest) = c :: cuGo false rest := by
        intro b
        simp [cuGo, h]
      refine ⟨?_, ?_, ?_⟩
      · rw [e false, hasDD_cons_ne h]
        exact ihf
      · rw [e true, hasDD_cons_ne h]
        exact ihf
      · rw [e true]
        simp [headIsU, h]

theorem cuGo_true_of_headNotU {l : JStr} (h : headIsU l = false) :
    cuGo true l = cuGo false l := by
  cases l with
  | nil => rfl
  | cons c t =>
    simp [headIsU] at h
    simp [cuGo, h]

theorem cuGo_id {l : JStr} (h : hasDD l = false) : cuGo false l = l := by
  induction l with
  | nil => rfl
  | cons c rest ih =>
    rw [hasDD_cons] at h
    obtain ⟨h1, h2⟩ := Bool.or_eq_false_iff.mp h
    by_cases hc : c = 95
    · subst hc
      have hh : headIsU rest = false := by simpa [startsDD_cons] using h1
      show 95 :: cuGo true rest = 95 :: rest
      rw [cuGo_true_of_headNotU hh, ih h2]
    · show (if c = 95 then _ else c :: cuGo false rest) = c :: rest
      simp [hc, ih h2]

theorem cuGo_mem {l : JStr} {c : Nat} : ∀ b, c ∈ cuGo b l → c ∈ l := by
  induction l with
  | nil => intro b h; simp [cuGo] at h
  | cons a rest ih =>
    intro b h
    by_cases ha : a = 95
    · subst ha
      cases b with
      | true =>
        simp [cuGo] at h
        exact List.mem_cons_of_mem _ (ih true h)
      | false =>
        simp only [cuGo, if_pos rfl] at h
        rcases List.mem_cons.mp h with h | h
        · exact h ▸ List.mem_cons_self _ _
        · exact List.mem_cons_of_mem _ (ih true h)
    · rw [show cuGo b (a :: rest) = a :: cuGo false rest by simp [cuGo, ha]] at h
      rcases List.mem_cons.mp h with h | h
      · exact h ▸ List.mem_cons_self _ _
      · exact List.mem_cons_of_mem _ (ih false h)

theorem headIs48_cuGo_false (l : JStr) : headIs48 (cuGo false l) = headIs48 l := by
  cases l with
  | nil => rfl
  | cons c t =>
    by_cases h : c = 95
    · subst h
      simp [cuGo, headIs48]
    · simp [cuGo, h, headIs48]

theorem headIsDigit_cuGo_false (l : JStr) : headIsDigit (cuGo false l) = headIsDigit l := by
  cases l with
  | nil => rfl
  | cons c t =>
    by_cases h : c = 95
    · subst h
      simp [cuGo, headIsDigit, isDigitC]
    · simp [cuGo, h, headIsDigit]

theorem cuGo_noZZD {l : JStr} (h : hasZZD l = false) : ∀ b, hasZZD (cuGo b l) = false := by
  induction l with
  | nil => intro b; cases b <;> rfl
  | cons c rest ih =>
    intro b
    rw [hasZZD_cons] at h
    obtain ⟨h1, h2⟩ := Bool.or_eq_false_iff.mp h
    by_cases hc : c = 95
    · subst hc
      cases b with
      | true =>
        show hasZZD (cuGo true rest) = false
        exact ih h2 true
      | false =>
        show hasZZD (95 :: cuGo true rest) = false
        rw [hasZZD_cons_ne (by norm_num)]
        exact ih h2 true
    · rw [show cuGo b (c :: rest) = c :: cuGo false rest by simp [cuGo, hc]]
      rw [hasZZD_cons]
      refine Bool.or_eq_false_iff.mpr ⟨?_, ih h2 false⟩
      rw [startsZZD_cons] at h1 ⊢
      by_cases hc48 : c = 48
      · subst hc48
        have d48 : (decide ((48 : Nat) = 48)) = true := by decide
        rw [d48, Bool.true_and] at h1 ⊢
        cases rest with
        | nil => rfl
        | cons r rest2 =>
          by_cases hr : r = 95
          · subst hr
            simp only [cuGo, if_pos rfl]
            simp [headIs48]
          · rw [show cuGo false (r :: rest2) = r :: cuGo false rest2 by simp [cuGo, hr]]
            simp only [headIs48, List.tail_cons] at h1 ⊢
            by_cases hr48 : r = 48
            · subst hr48
              rw [d48, Bool.true_and] at h1 ⊢
              rw [headIsDigit_cuGo_false]
              exact h1
            · simp [hr48]
      · simp [hc48]

/-!  Stripping trailing underscores yields a prefix of its input, and both
`hasZZD` and `hasDD` are monotone with respect to appending on the right;
stripping is also idempotent. -/

theorem stripTrailU_append (l : JStr) :
    l = stripTrailU l ++ (l.reverse.takeWhile (fun c => c = 95)).reverse := by
  have h := List.takeWhile_append_dropWhile (p := fun c => decide (c = 95)) (l := l.reverse)
  calc l = l.reverse.reverse := (List.reverse_reverse l).symm
    _ = (l.reverse.takeWhile (fun c => c = 95) ++
          l.reverse.dropWhile (fun c => c = 95)).reverse := by rw [h]
    _ = _ := by rw [List.reverse_append]; rfl

theorem headIs48_append {l l' : JStr} (h : headIs48 l = true) : headIs48 (l ++ l') = true := by
  cases l with
  | nil => simp [headIs48] at h
  | cons c t => simpa [headIs48] using h

theorem headIsDigit_append {l l' : JStr} (h : headIsDigit l = true) :
    headIsDigit (l ++ l') = true := by
  cases l with
  | nil => simp [headIsDigit] at h
  | cons c t => simpa [headIsDigit] using h

theorem headIsU_append {l l' : JStr} (h : headIsU l = true) : headIsU (l ++ l') = true := by
  cases l with
  | nil => simp [headIsU] at h
  | cons c t => simpa [headIsU] using h

theorem startsZZD_append {l l' : JStr} (h : startsZZD l = true) :
    startsZZD (l ++ l') = true := by
  rcases l with _ | ⟨a, _ | ⟨b, _ | ⟨c, t⟩⟩⟩ <;>
    simp only [startsZZD, headIs48, headIsDigit, List.tail_cons, List.cons_append,
      List.nil_append, List.tail_nil, Bool.and_eq_true] at h ⊢ <;> tauto

theorem startsDD_append {l l' : JStr} (h : startsDD l = true) : startsDD (l ++ l') = true := by
  rcases l with _ | ⟨a, _ | ⟨b, t⟩⟩ <;>
    simp only [startsDD, headIsU, List.tail_cons, List.cons_append, List.nil_append,
      List.tail_nil, Bool.and_eq_true] at h ⊢ <;> tauto

theorem hasZZD_append_left {l l' : JStr} (h : hasZZD (l ++ l') = false) :
    hasZZD l = false := by
  induction l with
  | nil => rfl
  | cons c t ih =>
    rw [List.cons_append, hasZZD_cons] at h
    obtain ⟨h1, h2⟩ := Bool.or_eq_false_iff.mp h
    rw [hasZZD_cons]
    refine Bool.or_eq_false_iff.mpr ⟨?_, ih h2⟩
    by_contra hs
    have hs' : startsZZD (c :: t) = true := by
      cases hv : startsZZD (c :: t)
      · exact absurd hv hs
      · rfl
    have := @startsZZD_append (c :: t) l' hs'
    rw [List.cons_append] at this
    rw [this] at h1
    exact Bool.true_eq_false.mp h1

theorem hasDD_append_left {l l' : JStr} (h : hasDD (l ++ l') = false) : hasDD l = false := by
  induction l with
  | nil => rfl
  | cons c t ih =>
    rw [List.cons_append, hasDD_cons] at h
    obtain ⟨h1, h2⟩ := Bool.or_eq_false_iff.mp h
    rw [hasDD_cons]
    refine Bool.or_eq_false_iff.mpr ⟨?_, ih h2⟩
    by_contra hs
    have hs' : startsDD (c :: t) = true := by
      cases hv : startsDD (c :: t)
      · exact absurd hv hs
      · rfl
    have := @startsDD_append (c :: t) l' hs'
    rw [List.cons_append] at this
    rw [this] at h1
    exact Bool.true_eq_false.mp h1

theorem dropWhile_idem (p : Nat → Bool) (l : JStr) :
    (l.dropWhile p).dropWhile p = l.dropWhile p := by
  induction l with
  | nil => rfl
  | cons c t ih =>
    by_cases h : p c = true
    · rw [List.dropWhile_cons_of_pos h, ih]
    · have h' : p c = false := by
        cases hv : p c
        · rfl
        · exact absurd hv h
      rw [List.dropWhile_cons_of_neg (by simp [h']),
        List.dropWhile_cons_of_neg (by simp [h'])]

theorem stripTrailU_idem (l : JStr) : stripTrailU (stripTrailU l) = stripTrailU l := by
  unfold stripTrailU
  rw [List.reverse_reverse, dropWhile_idem]

theorem stripTrailU_mem {l : JStr} {c : Nat} (h : c ∈ stripTrailU l) : c ∈ l := by
  unfold stripTrailU at h
  rw [List.mem_reverse] at h
  have := (List.dropWhile_sublist (l := l.reverse) (p := fun c => decide (c = 95))).subset h
  exact List.mem_reverse.mp this

theorem hasZZD_stripTrailU {l : JStr} (h : hasZZD l = false) :
    hasZZD (stripTrailU l) = false := by
  refine @hasZZD_append_left (stripTrailU l) ((l.reverse.takeWhile (fun c => c = 95)).reverse) ?_
  rw [← stripTrailU_append]
  exact h

theorem hasDD_stripTrailU {l : JStr} (h : hasDD l = false) : hasDD (stripTrailU l) = false := by
  refine @hasDD_append_left (stripTrailU l) ((l.reverse.takeWhile (fun c => c = 95)).reverse) ?_
  rw [← stripTrailU_append]
  exact h

/-!  The three properties a freshly normalized name satisfies, and from
which idempotence follows. -/

theorem normalizeGltfName_noZZD (s : JStr) : hasZZD (normalizeGltfName s) = false := by
  unfold normalizeGltfName collapseU
  refine hasZZD_stripTrailU (cuGo_noZZD ?_ false)
  rw [hasZZD_toLowerS]
  exact stripZeros_noZZD s

theorem normalizeGltfName_lowerFixed (s : JStr) :
    ∀ c ∈ normalizeGltfName s, lowerC c = c := by
  intro c hc
  unfold normalizeGltfName collapseU at hc
  exact toLowerS_mem_fixed (cuGo_mem false (stripTrailU_mem hc))

theorem normalizeGltfName_noDD (s : JStr) : hasDD (normalizeGltfName s) = false := by
  unfold normalizeGltfName collapseU
  exact hasDD_stripTrailU (cuGo_noDD _).1

theorem normalizeGltfName_fixes_normalized (s : JStr) :
    normalizeGltfName (normalizeGltfName s) = normalizeGltfName s := by
  have hZ : stripZeros (normalizeGltfName s) = normalizeGltfName s :=
    stripZeros_id (normalizeGltfName_noZZD s)
  have hL : toLowerS (normalizeGltfName s) = normalizeGltfName s :=
    toLowerS_fixed_of_mem (normalizeGltfName_lowerFixed s)
  have hU : collapseU (normalizeGltfName s) = normalizeGltfName s :=
    cuGo_id (normalizeGltfName_noDD s)
  have hT : stripTrailU (normalizeGltfName s) = normalizeGltfName s := by
    show stripTrailU (stripTrailU (collapseU (toLowerS (stripZeros s)))) = _
    rw [stripTrailU_idem]
    rfl
  show stripTrailU (collapseU (toLowerS (stripZeros (normalizeGltfName s)))) = _
  rw [hZ, hL, hU, hT]

/-!  The binding invariant: the consumed-key list mirrors the emitted
structures' catalog keys, those keys are pairwise distinct, and every bound
structure records exactly the lookup result of its own raw identifier. -/

/-- Invariant of the traverse accumulator. -/
def BindInv (catalog : Catalog) (st : BindResult) : Prop :=
  st.usedMetadataKeys = st.structures.map (fun b => b.catalogKey) ∧
    (st.structures.map (fun b => b.catalogKey)).Nodup ∧
    ∀ b ∈ st.structures, findMetadataForMesh b.uniqueKey catalog = some (b.catalogKey, b.metadata)

theorem bindStep_inv {catalog : Catalog} {st : BindResult} (n : JStr)
    (h : BindInv catalog st) : BindInv catalog (bindStep catalog st n) := by
  obtain ⟨hused, hnodup, hfind⟩ := h
  unfold bindStep
  cases hm : findMetadataForMesh n catalog with
  | none => exact ⟨hused, hnodup, hfind⟩
  | some kd =>
    obtain ⟨key, data⟩ := kd
    by_cases hdup : st.usedMetadataKeys.contains key
    · simp only [hdup, if_true]
      exact ⟨hused, hnodup, hfind⟩
    · simp only [hdup, if_false, Bool.false_eq_true]
      by_cases hrend : shouldRenderByTypeAndName data
      · simp only [hrend, Bool.not_true, if_false, Bool.false_eq_true]
        refine ⟨?_, ?_, ?_⟩
        · simp only [List.map_append, List.map_cons, List.map_nil]
          rw [hused]
        · have hnotmem : key ∉ st.structures.map (fun b => b.catalogKey) := by
            rw [← hused]
            intro hmem
            exact hdup (List.elem_iff.mpr hmem)
          simp only [List.map_append, List.map_cons, List.map_nil]
          rw [List.nodup_append]
          exact ⟨hnodup, List.nodup_singleton key, by simpa using hnotmem⟩
        · intro b hb
          rcases List.mem_append.mp hb with hb | hb
          · exact hfind b hb
          · rw [List.mem_singleton.mp hb]
            exact hm
      · simp only [hrend, Bool.not_false, if_true]
        exact ⟨hused, hnodup, hfind⟩

theorem foldl_bindStep_inv (catalog : Catalog) (names : List JStr) :
    ∀ st : BindResult, BindInv catalog st →
      BindInv catalog (names.foldl (bindStep catalog) st) := by
  induction names with
  | nil => intro st h; exact h
  | cons n rest ih =>
    intro st h
    exact ih (bindStep catalog st n) (bindStep_inv n h)

theorem processedStructures_inv (catalog : Catalog) (names : List JStr) :
    BindInv catalog (processedStructures catalog names) := by
  refine foldl_bindStep_inv catalog names initBindResult ?_
  refine ⟨rfl, List.nodup_nil, ?_⟩
  intro b hb
  simp [initBindResult] at hb

/-!  The claims. -/

/-- Claim C1, counterexample: the claim says a raw identifier whose matched
record fails the renderability filter still consumes its catalog key, and a
later raw identifier matching the same key is counted as a duplicate.  On
the scene `[liver, liver001]` against a catalog whose single record (an
organ) fails the filter, the code counts both as filtered (2) and none as
duplicate (0), and consumes no key. -/
theorem claim_C1_counterexample :
    processedStructures liverCat [strCodes "liver", strCodes "liver001"] =
      ⟨[], [], 2, 0, 0⟩ := by decide

/-- Claim C1, amended: the filter runs after the duplicate check, and a raw
identifier whose matched record fails the filter does not consume its
catalog key; a later raw identifier matching the same (still unconsumed)
catalog key is filtered again — each such attempt increments the filtered
counter, the duplicate counter is untouched, and no BoundStructure is
emitted. -/
theorem claim_C1 (catalog : Catalog) (st : BindResult) (n₁ n₂ key : JStr)
    (data : StructureMetadata)
    (h₁ : findMetadataForMesh n₁ catalog = some (key, data))
    (h₂ : findMetadataForMesh n₂ catalog = some (key, data))
    (hfree : st.usedMetadataKeys.contains key = false)
    (hfilt : shouldRenderByTypeAndName data = false) :
    [n₁, n₂].foldl (bindStep catalog) st =
      { st with skippedByTypeOrName := st.skippedByTypeOrName + 1 + 1 } := by
  have hmem : key ∉ st.usedMetadataKeys := by simpa using hfree
  have step₁ : bindStep catalog st n₁ =
      { st with skippedByTypeOrName := st.skippedByTypeOrName + 1 } := by
    unfold bindStep
    rw [h₁]
    simp [hmem, hfilt]
  have step₂ : bindStep catalog { st with skippedByTypeOrName := st.skippedByTypeOrName + 1 }
      n₂ = { st with skippedByTypeOrName := st.skippedByTypeOrName + 1 + 1 } := by
    unfold bindStep
    rw [h₂]
    simp [hmem, hfilt]
  show bindStep catalog (bindStep catalog st n₁) n₂ = _
  rw [step₁, step₂]

/-- Witness for the amended claim C1 at the concrete `[liver, liver001]`
scene. -/
theorem claim_C1_witness :
    findMetadataForMesh (strCodes "liver") liverCat = some (strCodes "liver", mdLiver) ∧
      findMetadataForMesh (strCodes "liver001") liverCat = some (strCodes "liver", mdLiver) ∧
      initBindResult.usedMetadataKeys.contains (strCodes "liver") = false ∧
      shouldRenderByTypeAndName mdLiver = false ∧
      [strCodes "liver", strCodes "liver001"].foldl (bindStep liverCat) initBindResult =
        { initBindResult with
            skippedByTypeOrName := initBindResult.skippedByTypeOrName + 1 + 1 } :=
  ⟨by decide, by decide, by decide, by decide,
    claim_C1 liverCat initBindResult (strCodes "liver") (strCodes "liver001")
      (strCodes "liver") mdLiver (by decide) (by decide) (by decide) (by decide)⟩

/-- Claim C2, counterexample: the claim says that for catalog key
`hip_bone` and raw identifier `Hip_Bone` the normalized-form lookup misses
and only the third, plain-lowercase stage hits; in fact normalization
already lowercases, so the second-stage (normalized-form) lookup hits. -/
theorem claim_C2_counterexample :
    hipCat.lookup (normalizeGltfName (strCodes "Hip_Bone")) = some mdHip := by decide

/-- Claim C2, amended: for catalog key `hip_bone` and raw identifier
`Hip_Bone`, binding succeeds via the second, normalized-form lookup stage —
the exact-key lookup misses and the normalized form is exactly `hip_bone`
(normalization already lowercases), so the plain-lowercase third stage is
never consulted. -/
theorem claim_C2 :
    findMetadataForMesh (strCodes "Hip_Bone") hipCat = some (strCodes "hip_bone", mdHip) ∧
      hipCat.lookup (strCodes "Hip_Bone") = none ∧
      normalizeGltfName (strCodes "Hip_Bone") = strCodes "hip_bone" := by decide

/-- Claim C3: for every scene and catalog, no two BoundStructures share a
catalog key, no two share a raw mesh identifier, and the consumed-key set
size equals the number of BoundStructures produced. -/
theorem claim_C3 (catalog : Catalog) (names : List JStr) :
    ((processedStructures catalog names).structures.map (fun b => b.catalogKey)).Nodup ∧
      ((processedStructures catalog names).structures.map (fun b => b.uniqueKey)).Nodup ∧
      (processedStructures catalog names).usedMetadataKeys.length =
        (processedStructures catalog names).structures.length := by
  obtain ⟨hused, hnodup, hfind⟩ := processedStructures_inv catalog names
  refine ⟨hnodup, ?_, ?_⟩
  · rw [List.Nodup, List.pairwise_map] at hnodup ⊢
    refine List.Pairwise.imp_of_mem ?_ hnodup
    intro a b ha hb hne heq
    have fa := hfind a ha
    have fb := hfind b hb
    rw [heq, fb] at fa
    exact hne (congrArg Prod.fst (Option.some_injective _ fa)).symm
  · rw [hused, List.length_map]

/-- Claim C4: a structure is peeled iff its depth layer exceeds
`3 − peelDepth`; with peel depth 0 a layer-3 structure stays visible and a
layer-4 structure is peeled; a search match overrides peeling; and the
target opacity is 0 when peeled-and-not-searched, else 1 for bones and 0.9
for every other category. -/
theorem claim_C4 (md : StructureMetadata) (st : InteractionState) :
    (isPeeled md st = true ↔ (md.layer : Int) > 3 - (st.peelDepth : Int)) ∧
      (st.peelDepth = 0 → md.layer = 3 → isPeeled md st = false) ∧
      (st.peelDepth = 0 → md.layer = 4 → isPeeled md st = true) ∧
      (matchesSearch md st = true →
        targetOpacity md st = if md.type = "bone" then 1 else 9 / 10) ∧
      (isPeeled md st = true → matchesSearch md st = false → targetOpacity md st = 0) ∧
      (shouldPeel md st = false →
        targetOpacity md st = if md.type = "bone" then 1 else 9 / 10) := by
  refine ⟨?_, ?_, ?_, ?_, ?_, ?_⟩
  · simp [isPeeled, maxVisibleLayer]
  · intro h1 h2
    simp [isPeeled, maxVisibleLayer, h1, h2]
  · intro h1 h2
    simp [isPeeled, maxVisibleLayer, h1, h2]
  · intro h
    simp [targetOpacity, shouldPeel, h]
  · intro h1 h2
    simp [targetOpacity, shouldPeel, h1, h2]
  · intro h
    simp [targetOpacity, h]

/-- Witness for claim C4: with peel depth 0 and no search, the layer-3 bone
is not peeled and fully opaque while the layer-4 muscle is peeled to
opacity 0; a matching search restores the layer-4 muscle's baseline 0.9. -/
theorem claim_C4_witness :
    isPeeled mdBone3 stDefault = false ∧ isPeeled mdMuscle4 stDefault = true ∧
      targetOpacity mdMuscle4 stDefault = 0 ∧
      targetOpacity mdMuscle4 stSearchPsoas = 9 / 10 ∧
      targetOpacity mdBone3 stDefault = 1 := by
  refine ⟨?_, ?_, ?_, ?_, ?_⟩
  · exact (claim_C4 mdBone3 stDefault).2.1 rfl rfl
  · exact (claim_C4 mdMuscle4 stDefault).2.2.1 rfl rfl
  · exact (claim_C4 mdMuscle4 stDefault).2.2.2.2.1 (by decide) (by decide)
  · have h := (claim_C4 mdMuscle4 stSearchPsoas).2.2.2.1 (by decide)
    simpa using h
  · have h := (claim_C4 mdBone3 stDefault).2.2.2.2.2 (by decide)
    simpa using h

/-- Claim C5: target color follows the precedence search match > highlight
> base — a search match yields the attention color `#FFD700` regardless of
hover or selection; a non-searched structure that is hovered locally,
selected, or externally hovered, and not peeled, yields the category's
highlight color; otherwise (in particular when not highlighted, or when
peeled and not searched) the category's base color. -/
theorem claim_C5 (hovered : Bool) (md : StructureMetadata) (st : InteractionState) :
    (matchesSearch md st = true → targetColor hovered md st = "#FFD700") ∧
      (matchesSearch md st = false →
        (hovered || isSelected md st || decide (st.hoveredStructureId = some md.meshId)) =
          true →
        isPeeled md st = false → targetColor hovered md st = (colorsFor md.type).highlight) ∧
      (matchesSearch md st = false →
        (hovered || isSelected md st || decide (st.hoveredStructureId = some md.meshId)) =
          false →
        targetColor hovered md st = (colorsFor md.type).dflt) ∧
      (matchesSearch md st = false → isPeeled md st = true →
        targetColor hovered md st = (colorsFor md.type).dflt) := by
  refine ⟨?_, ?_, ?_, ?_⟩
  · intro h
    simp [targetColor, h]
  · intro h hh hp
    have h1 : isHighlighted hovered md st = true := by
      show (hovered || isSelected md st || decide (st.hoveredStructureId = some md.meshId) ||
        matchesSearch md st) = true
      rw [h, Bool.or_false]
      exact hh
    simp [targetColor, h, h1, shouldPeel, hp]
  · intro h hh
    have h1 : isHighlighted hovered md st = false := by
      show (hovered || isSelected md st || decide (st.hoveredStructureId = some md.meshId) ||
        matchesSearch md st) = false
      rw [h, Bool.or_false]
      exact hh
    simp [targetColor, h, h1]
  · intro h hp
    simp [targetColor, h, shouldPeel, hp]

/-- Witness for claim C5 at concrete states: search beats hover (gold), a
hovered unpeeled bone gets the bone highlight color, an idle bone gets the
bone base color, and a hovered peeled muscle falls back to its base
color. -/
theorem claim_C5_witness :
    targetColor true mdMuscle4 stSearchPsoas = "#FFD700" ∧
      targetColor true mdBone3 stDefault = "#FFF8E7" ∧
      targetColor false mdBone3 stDefault = "#E8DCC4" ∧
      targetColor true mdMuscle4 stDefault = "#C41E3A" := by
  refine ⟨?_, ?_, ?_, ?_⟩
  · exact (claim_C5 true mdMuscle4 stSearchPsoas).1 (by decide)
  · have h := (claim_C5 true mdBone3 stDefault).2.1 (by decide) (by decide) (by decide)
    simpa using h
  · have h := (claim_C5 false mdBone3 stDefault).2.2.1 (by decide) (by decide)
    simpa using h
  · have h := (claim_C5 true mdMuscle4 stDefault).2.2.2 (by decide) (by decide)
    simpa using h

/-- Claim C6: the name normalizer is idempotent — normalizing an
already-normalized name returns it unchanged. -/
theorem claim_C6 (s : JStr) :
    normalizeGltfName (normalizeGltfName s) = normalizeGltfName s :=
  normalizeGltfName_fixes_normalized s

/-- Claim C7: binding is order sensitive with first-match-wins — on the
scene `[pelvis_bone001, pelvis_bone002]`, both of which normalize to the
renderable catalog key `pelvis_bone`, the first identifier becomes the one
BoundStructure (keeping its original unnormalized identifier as unique
handle) and the second is counted as a duplicate. -/
theorem claim_C7 :
    normalizeGltfName (strCodes "pelvis_bone001") = strCodes "pelvis_bone" ∧
      normalizeGltfName (strCodes "pelvis_bone002") = strCodes "pelvis_bone" ∧
      shouldRenderByTypeAndName mdPelvis = true ∧
      processedStructures pelvisCat [strCodes "pelvis_bone001", strCodes "pelvis_bone002"] =
        ⟨[⟨strCodes "pelvis_bone001", strCodes "pelvis_bone", mdPelvis⟩],
         [strCodes "pelvis_bone"], 0, 1, 0⟩ := by decide

/-- Claim C8: selection is a toggle — `set-selected(X)` with `X` already
selected yields no selection; invoking it twice in a row from a state not
selecting `X` leaves no selection; and clicking an already-selected
structure clears the selection.  (The store implementation is modelled from
the spec, see `setSelectedStructure`.) -/
theorem claim_C8 (X : JStr) (cur : Option JStr) :
    setSelectedStructure (some X) (some X) = none ∧
      (cur ≠ some X →
        setSelectedStructure (some X) (setSelectedStructure (some X) cur) = none) ∧
      (∀ (md : StructureMetadata) (st : InteractionState), isSelected md st = true →
        onClickEffect true md st = { st with selectedStructureId := none }) := by
  refine ⟨?_, ?_, ?_⟩
  · simp [setSelectedStructure]
  · intro h
    have h' : some X ≠ cur := fun e => h e.symm
    simp [setSelectedStructure, h']
  · intro md st hsel
    simp [onClickEffect, hsel, setSelectedStructure]

/-- Witness for claim C8: two consecutive `set-selected(psoas_major)` calls
from an empty selection end with no selection, and clicking the selected
`psoas_major` structure clears the selection. -/
theorem claim_C8_witness :
    (none : Option JStr) ≠ some (strCodes "psoas_major") ∧
      setSelectedStructure (some (strCodes "psoas_major"))
          (setSelectedStructure (some (strCodes "psoas_major")) none) = none ∧
      isSelected mdMuscle4 stSelPsoas = true ∧
      onClickEffect true mdMuscle4 stSelPsoas =
        { stSelPsoas with selectedStructureId := none } :=
  ⟨by decide,
    (claim_C8 (strCodes "psoas_major") none).2.1 (by decide),
    by decide,
    (claim_C8 (strCodes "psoas_major") none).2.2 mdMuscle4 stSelPsoas (by decide)⟩

/-- Claim C9: a structure is interactive iff its displayed (animated)
opacity strictly exceeds 0.1 — at exactly 0.1 it is non-interactive, at
0.11 interactive — and a non-interactive structure's pointer handlers
(hover, out, click) are all no-ops. -/
theorem claim_C9 :
    (∀ o : ℚ, isInteractive o = true ↔ o > 1 / 10) ∧
      isInteractive (1 / 10) = false ∧ isInteractive (11 / 100) = true ∧
      (∀ (md : StructureMetadata) (hovered : Bool) (st : InteractionState),
        onPointerOverEffect false md hovered st = (hovered, st) ∧
        onPointerOutEffect false hovered st = (hovered, st) ∧
        onClickEffect false md st = st) := by
  refine ⟨fun o => ?_, ?_, ?_, fun md hovered st => ⟨rfl, rfl, rfl⟩⟩
  · simp [isInteractive]
  · simp [isInteractive]
  · simp only [isInteractive, decide_eq_true_eq]
    norm_num

/-- Claim C10: there is no dedicated visibility flag for cartilage or
fascia — cartilage maps to the `bones` flag and fascia (like any
unanticipated category) to the `muscles` flag, so turning bones off fully
suppresses cartilage structures and turning muscles off fully suppresses
fascia structures. -/
theorem claim_C10 :
    visibilityKeyFor "cartilage" = VisibilityKey.bones ∧
      visibilityKeyFor "fascia" = VisibilityKey.muscles ∧
      (∀ (md : StructureMetadata) (st : InteractionState), md.type = "cartilage" →
        st.layerVisibility.bones = false → isTypeVisible st.layerVisibility md.type = false) ∧
      (∀ (md : StructureMetadata) (st : InteractionState), md.type = "fascia" →
        st.layerVisibility.muscles = false →
          isTypeVisible st.layerVisibility md.type = false) ∧
      (∀ t : String, TYPE_TO_VISIBILITY_KEY t = none →
        visibilityKeyFor t = VisibilityKey.muscles) := by
  refine ⟨by decide, by decide, ?_, ?_, ?_⟩
  · intro md st h1 h2
    rw [isTypeVisible, h1, show visibilityKeyFor "cartilage" = VisibilityKey.bones
      from by decide]
    exact h2
  · intro md st h1 h2
    rw [isTypeVisible, h1, show visibilityKeyFor "fascia" = VisibilityKey.muscles
      from by decide]
    exact h2
  · intro t h
    simp [visibilityKeyFor, h]

/-- Witness for claim C10: with bones off the cartilage record is not
rendered at all, with muscles off the fascia record is not rendered at all,
and an unanticipated category string falls back to the muscles flag. -/
theorem claim_C10_witness :
    isTypeVisible stNoBones.layerVisibility mdCart.type = false ∧
      isTypeVisible stNoMuscles.layerVisibility mdFascia.type = false ∧
      visibilityKeyFor "nerve" = VisibilityKey.muscles :=
  ⟨claim_C10.2.2.1 mdCart stNoBones rfl rfl,
    claim_C10.2.2.2.1 mdFascia stNoMuscles rfl rfl,
    claim_C10.2.2.2.2 "nerve" (by decide)⟩
